import Mathlib

/-!
Shallow embedding of the order-finalization and stock-reservation core of the
itrack backend (routers/sales.py, routers/orders.py), together with proofs of
the specified properties.

The relational store is modelled as explicit lists of rows.  Each HTTP handler
becomes a function `DB → … → Except HTTPError DB`: a returned `.error` models
an exception that rolls the transaction back (the caller keeps the old state),
a returned `.ok` models a committed transaction.  `NOW()` is passed in as an
explicit `now : Nat` parameter.  Prices and stock quantities are integers.
-/

deriving instance DecidableEq for Except

namespace ITrack

/-- A row of the `item` table: id, name, category, price, stock quantity. -/
structure Item where
  item_id : Nat
  name : String
  category : String
  price : Int
  stock_quantity : Int
  deriving Repr, DecidableEq

/-- A row of the `order` table. -/
structure OrderRow where
  order_id : Nat
  user_id : Nat
  total_price : Int
  OR_number : Option String
  customer_name : String
  transaction_date : Option Nat
  deriving Repr, DecidableEq

/-- A row of the `order_line` table. -/
structure OrderLine where
  order_line_id : Nat
  order_id : Nat
  item_id : Nat
  quantity : Int
  deriving Repr, DecidableEq

/-- The database state.  `nextOrderId` and `nextLineId` model the
auto-increment counters.  `deducted` is a ghost field used only by the
specification: it records the ids of the orders for which a stock-deduction
pass has been executed; no operation branches on it. -/
structure DB where
  items : List Item
  users : List Nat
  orders : List OrderRow
  order_lines : List OrderLine
  nextOrderId : Nat
  nextLineId : Nat
  deducted : List Nat
  deriving Repr, DecidableEq

/-- An HTTPException raised by a handler: status code and detail string. -/
structure HTTPError where
  status : Nat
  detail : String
  deriving Repr, DecidableEq

/-- One element of `SaleCreateIn.items` (schemas.py `SaleItemIn`). -/
structure SaleItemIn where
  item_id : Nat
  quantity : Int
  deriving Repr, DecidableEq

/-- The intake payload (schemas.py `SaleCreateIn`).  `student_id` and
`course` are accepted but never read by `create_sale`. -/
structure SaleCreateIn where
  user_id : Nat
  customer_name : String
  OR_number : Option String
  student_id : Option String
  course : Option String
  items : List SaleItemIn
  deriving Repr, DecidableEq

/-- The payload of `add_or` (schemas.py `ORPayload`): a required string. -/
structure ORPayload where
  OR_number : String
  deriving Repr, DecidableEq

/-- The query `SELECT … FROM item WHERE item_id = %s` (first matching row). -/
def findItemL (items : List Item) (iid : Nat) : Option Item :=
  items.find? (fun i => i.item_id == iid)

def findItem (db : DB) (iid : Nat) : Option Item :=
  findItemL db.items iid

/-- The query `SELECT … FROM \x60order\x60 WHERE order_id = %s` (first matching row). -/
def findOrder (db : DB) (oid : Nat) : Option OrderRow :=
  db.orders.find? (fun o => o.order_id == oid)

/-- The join condition of the `order_line JOIN item` queries restricted to
`i.category = Souvenir`: the item of the line exists and is a Souvenir item. -/
def lineIsSouvenir (items : List Item) (l : OrderLine) : Bool :=
  match findItemL items l.item_id with
  | some i => i.category == "Souvenir"
  | none => false

/-- The count `SELECT COUNT(*) FROM order_line ol JOIN item i ON i.item_id = ol.item_id
WHERE ol.order_id = %s AND i.category = Souvenir`. -/
def souvenirCountL (items : List Item) (lines : List OrderLine) (oid : Nat) : Nat :=
  lines.countP (fun l => l.order_id == oid && lineIsSouvenir items l)

def souvenirCount (db : DB) (oid : Nat) : Nat :=
  souvenirCountL db.items db.order_lines oid

/-- The test `bool(job_info["cnt"] > 0)` in `add_or`. -/
def isSouvenirOrder (db : DB) (oid : Nat) : Bool :=
  decide (0 < souvenirCount db oid)

/-- The query `SELECT ol.item_id, ol.quantity, i.stock_quantity FROM order_line ol JOIN
item i … WHERE ol.order_id = %s FOR UPDATE`: the lines of this order joined with
their item rows (a line whose item id matches no item drops out, as in SQL). -/
def joinedLinesL (items : List Item) (lines : List OrderLine) (oid : Nat) :
    List (OrderLine × Item) :=
  lines.filterMap (fun l =>
    if l.order_id == oid then (findItemL items l.item_id).map (fun i => (l, i)) else none)

def joinedLines (db : DB) (oid : Nat) : List (OrderLine × Item) :=
  joinedLinesL db.items db.order_lines oid

/-- The same join restricted to `i.category = Souvenir` (the line query of
`set_joborder_date`). -/
def souvenirLines (db : DB) (oid : Nat) : List (OrderLine × Item) :=
  (joinedLines db oid).filter (fun li => li.2.category == "Souvenir")

/-- The update `UPDATE item SET stock_quantity = stock_quantity - %s WHERE item_id = %s`. -/
def adjustStock (items : List Item) (iid : Nat) (q : Int) : List Item :=
  items.map (fun i =>
    if i.item_id == iid then { i with stock_quantity := i.stock_quantity - q } else i)

/-- The deduction loop: one stock `UPDATE` per fetched line, in order.  The
updates are cumulative against the store, while the validation that precedes
them compares against the stock snapshot taken when the lines were fetched. -/
def deductAll (items : List Item) (ls : List (OrderLine × Item)) : List Item :=
  ls.foldl (fun acc li => adjustStock acc li.1.item_id li.1.quantity) items

def insufficientDetail (iid : Nat) : String :=
  "Insufficient stock for item " ++ toString iid ++ "."

/-- The per-order field update performed by `add_or` step 4:
`UPDATE \x60order\x60 SET OR_number = %s, transaction_date = NOW() WHERE order_id = %s`. -/
def setORFields (oid : Nat) (orNum : String) (now : Nat) (o : OrderRow) : OrderRow :=
  if o.order_id == oid then
    { o with OR_number := some orNum, transaction_date := some now }
  else o

def applyORUpdate (db : DB) (oid : Nat) (orNum : String) (now : Nat) : DB :=
  { db with orders := db.orders.map (setORFields oid orNum now) }

/-- The per-order field update performed by `set_joborder_date` step 4:
`UPDATE \x60order\x60 SET transaction_date = COALESCE(transaction_date, NOW())`. -/
def setJobDateField (oid : Nat) (now : Nat) (o : OrderRow) : OrderRow :=
  if o.order_id == oid then
    { o with transaction_date := some (o.transaction_date.getD now) }
  else o

def applyJobDateUpdate (db : DB) (oid : Nat) (now : Nat) : DB :=
  { db with orders := db.orders.map (setJobDateField oid now) }

/-- The duplicate-receipt query of `add_or` step 0: another order (a row with
a different id) already holds this OR_number. -/
def hasDuplicateOR (db : DB) (oid : Nat) (orNum : String) : Bool :=
  db.orders.any (fun o => o.OR_number == some orNum && o.order_id != oid)

/-- sales.py `create_sale`, validation of the item list: per line, the item
must exist (else 404) and have stock ≥ quantity (else 409); on success the
accumulated total `Σ price × quantity` is returned.  No stock is written. -/
def validLines (db : DB) : List SaleItemIn → Except HTTPError Int
  | [] => .ok 0
  | it :: rest =>
    match findItemL db.items it.item_id with
    | none => .error ⟨404, "Item " ++ toString it.item_id ++ " not found."⟩
    | some row =>
      if row.stock_quantity < it.quantity then
        .error ⟨409, insufficientDetail it.item_id⟩
      else
        match validLines db rest with
        | .error e => .error e
        | .ok t => .ok (row.price * it.quantity + t)

/-- The `INSERT INTO order_line …` loop of `create_sale`. -/
def insertLines (oid : Nat) (startId : Nat) : List SaleItemIn → List OrderLine
  | [] => []
  | it :: rest => ⟨startId, oid, it.item_id, it.quantity⟩ :: insertLines oid (startId + 1) rest

/-- The header + line inserts of `create_sale`: the header is inserted with
`OR_number` taken from the payload and `transaction_date = NULL`. -/
def insertSale (db : DB) (p : SaleCreateIn) (total : Int) : DB :=
  { db with
    orders := db.orders ++
      [{ order_id := db.nextOrderId, user_id := p.user_id, total_price := total,
         OR_number := p.OR_number, customer_name := p.customer_name,
         transaction_date := none }],
    order_lines := db.order_lines ++ insertLines db.nextOrderId db.nextLineId p.items,
    nextOrderId := db.nextOrderId + 1,
    nextLineId := db.nextLineId + p.items.length }

/-- sales.py `create_sale` (CreateDraftSale): validate, then insert the draft
header and lines in one transaction; stock is validated but never written. -/
def create_sale (db : DB) (p : SaleCreateIn) : Except HTTPError (DB × Nat) :=
  if p.items.isEmpty then .error ⟨400, "No items provided."⟩
  else if p.items.any (fun i => i.quantity ≤ 0) then
    .error ⟨400, "Quantities must be positive."⟩
  else
    match validLines db p.items with
    | .error e => .error e
    | .ok total =>
      if db.users.contains p.user_id then
        .ok (insertSale db p total, db.nextOrderId)
      else
        .error ⟨400, "Invalid user_id " ++ toString p.user_id⟩

/-- orders.py `add_or` (FinalizeNormal): enforce OR uniqueness (only when the
payload string is non-empty — Python truthiness), look up the order, and
deduct stock only when the `OR_number` of the order was previously NULL and the
order has no Souvenir line; finally set `OR_number` and
`transaction_date = NOW()` unconditionally. -/
def add_or (db : DB) (order_id : Nat) (payload : ORPayload) (now : Nat) :
    Except HTTPError DB :=
  if payload.OR_number != "" && hasDuplicateOR db order_id payload.OR_number then
    .error ⟨400, "OR is not unique"⟩
  else
    match findOrder db order_id with
    | none => .error ⟨404, "Order not found"⟩
    | some row =>
      if row.OR_number.isSome || isSouvenirOrder db order_id then
        .ok (applyORUpdate db order_id payload.OR_number now)
      else
        match (joinedLines db order_id).find?
            (fun li => li.2.stock_quantity < li.1.quantity) with
        | some li => .error ⟨409, insufficientDetail li.1.item_id⟩
        | none =>
          .ok (applyORUpdate
            { db with
              items := deductAll db.items (joinedLines db order_id),
              deducted := order_id :: db.deducted }
            order_id payload.OR_number now)

/-- orders.py `set_joborder_date` (FinalizeJobOrder): look up the order, fail
when it has no Souvenir line, deduct stock for the Souvenir lines only when
`transaction_date` was previously NULL, then set
`transaction_date = COALESCE(transaction_date, NOW())`. -/
def set_joborder_date (db : DB) (order_id : Nat) (now : Nat) : Except HTTPError DB :=
  match findOrder db order_id with
  | none => .error ⟨404, "Order not found"⟩
  | some row =>
    if souvenirCount db order_id == 0 then
      .error ⟨400, "Order does not contain any \x27Souvenir\x27 items"⟩
    else if row.transaction_date.isSome then
      .ok (applyJobDateUpdate db order_id now)
    else
      match (souvenirLines db order_id).find?
          (fun li => li.2.stock_quantity < li.1.quantity) with
      | some li => .error ⟨409, insufficientDetail li.1.item_id⟩
      | none =>
        .ok (applyJobDateUpdate
          { db with
            items := deductAll db.items (souvenirLines db order_id),
            deducted := order_id :: db.deducted }
          order_id now)

/-- orders.py `delete_order` (DeleteOrder): 404 when the order id is absent,
otherwise delete the order row.  Modelled from the spec: the removal of the
`order_line` rows of the order is performed by the cascading foreign
key, declared in the schema outside this repository; the spec states that an
Order "exclusively owns its Order Lines (composition, cascading delete)".
No item row is touched. -/
def delete_order (db : DB) (order_id : Nat) : Except HTTPError DB :=
  match findOrder db order_id with
  | none => .error ⟨404, "Order not found"⟩
  | some _ =>
    .ok { db with
          orders := db.orders.filter (fun o => o.order_id != order_id),
          order_lines := db.order_lines.filter (fun l => l.order_id != order_id) }

/-- One client request against the core. -/
inductive Op where
  | create (p : SaleCreateIn)
  | addOR (oid : Nat) (payload : ORPayload) (now : Nat)
  | setJob (oid : Nat) (now : Nat)
  | del (oid : Nat)
  deriving Repr, DecidableEq

/-- Apply a request: a raised error rolls the transaction back, so the caller
keeps the previous state. -/
def step (db : DB) : Op → DB
  | .create p => match create_sale db p with
    | .ok (db1, _) => db1
    | .error _ => db
  | .addOR oid p now => match add_or db oid p now with
    | .ok db1 => db1
    | .error _ => db
  | .setJob oid now => match set_joborder_date db oid now with
    | .ok db1 => db1
    | .error _ => db
  | .del oid => match delete_order db oid with
    | .ok db1 => db1
    | .error _ => db

def run (db : DB) : List Op → DB
  | [] => db
  | op :: rest => run (step db op) rest

def stockOf (db : DB) (iid : Nat) : Option Int :=
  (findItem db iid).map (fun i => i.stock_quantity)

/-- Well-formedness delivered by the relational store itself: all order ids
(of order rows, line rows and ghost deduction marks) were produced by the
auto-increment counter, hence are below `nextOrderId`. -/
def WF (db : DB) : Prop :=
  (∀ o ∈ db.orders, o.order_id < db.nextOrderId) ∧
  (∀ l ∈ db.order_lines, l.order_id < db.nextOrderId) ∧
  (∀ i ∈ db.deducted, i < db.nextOrderId)

/-- The deduction invariant of the spec, strengthened for the induction: stock has
been deducted for an order (ghost mark) iff its completion timestamp is
non-null, and for orders without Souvenir lines the receipt field and the
completion timestamp are null together. -/
def DeductionInv (db : DB) : Prop :=
  ∀ o ∈ db.orders,
    (o.transaction_date.isSome = true ↔ o.order_id ∈ db.deducted) ∧
    (souvenirCount db o.order_id = 0 →
      (o.OR_number.isSome = true ↔ o.transaction_date.isSome = true))

/-- The usage restriction under which the invariant of the spec holds: drafts are
created without a receipt identifier, and FinalizeNormal is only invoked on
orders with no Souvenir line. -/
def goodOp (db : DB) : Op → Prop
  | .create p => p.OR_number = none
  | .addOR oid _ _ => souvenirCount db oid = 0
  | .setJob _ _ => True
  | .del _ => True

def goodTrace (db : DB) : List Op → Prop
  | [] => True
  | op :: rest => goodOp db op ∧ goodTrace (step db op) rest

instance (db : DB) : Decidable (WF db) := by
  unfold WF
  infer_instance

instance (db : DB) : Decidable (DeductionInv db) := by
  unfold DeductionInv
  infer_instance

instance (db : DB) (op : Op) : Decidable (goodOp db op) := by
  cases op <;> (unfold goodOp; infer_instance)

instance goodTraceDecidable (db : DB) (ops : List Op) : Decidable (goodTrace db ops) := by
  induction ops generalizing db with
  | nil => exact isTrue trivial
  | cons op rest ih =>
    have hd : Decidable (goodOp db op ∧ goodTrace (step db op) rest) :=
      @instDecidableAnd _ _ _ (ih (step db op))
    exact hd

/-! ### Concrete states used by counterexamples and witnesses -/

/-- A non-Souvenir catalog item with stock 10. -/
def uniformItem : Item := ⟨1, "Uniform", "Uniform", 100, 10⟩

/-- A Souvenir catalog item with stock 5. -/
def souvenirItem : Item := ⟨2, "Mug", "Souvenir", 80, 5⟩

/-- Catalog with one normal and one Souvenir item, one user, no orders. -/
def baseDB : DB := ⟨[uniformItem, souvenirItem], [1], [], [], 1, 1, []⟩

/-- Draft for 4 uniforms, no OR number supplied at intake. -/
def pNormal : SaleCreateIn := ⟨1, "Ana", none, none, none, [⟨1, 4⟩]⟩

/-- Draft for 4 uniforms with an OR number already supplied at intake. -/
def pPreOR : SaleCreateIn := ⟨1, "Ben", some "R0", none, none, [⟨1, 4⟩]⟩

/-- Draft for 2 souvenir mugs, no OR number. -/
def pSouv : SaleCreateIn := ⟨1, "Carla", none, none, none, [⟨2, 2⟩]⟩

/-- Draft with two lines for the same item; each line alone fits the stock of
10 but their sum 13 does not. -/
def pTwoLines : SaleCreateIn := ⟨1, "Dario", none, none, none, [⟨1, 6⟩, ⟨1, 7⟩]⟩

/-- Draft carrying OR number "X" at intake. -/
def pX : SaleCreateIn := ⟨1, "Elena", some "X", none, none, [⟨1, 1⟩]⟩

def dbPre1 : DB := step baseDB (.create pPreOR)
def dbPre2 : DB := step dbPre1 (.addOR 1 ⟨"R9"⟩ 5)

def dbNorm1 : DB := step baseDB (.create pNormal)
def dbNorm2 : DB := step dbNorm1 (.addOR 1 ⟨"R1"⟩ 5)
def dbNorm3 : DB := step dbNorm2 (.addOR 1 ⟨"R2"⟩ 6)

def dbOver1 : DB := step baseDB (.create pTwoLines)
def dbOver2 : DB := step dbOver1 (.addOR 1 ⟨"R1"⟩ 7)

def dbSouv1 : DB := step baseDB (.create pSouv)
def dbSouv2 : DB := step dbSouv1 (.setJob 1 5)
def dbSouv3 : DB := step dbSouv2 (.setJob 1 9)

def dbX1 : DB := step baseDB (.create pX)
def dbX2 : DB := step dbX1 (.create pX)

def dbSouvOR : DB := step dbSouv1 (.addOR 1 ⟨"R5"⟩ 4)

def dbDel : DB := step dbNorm2 (.del 1)

/-! ### Helper lemmas -/

lemma adjust1_id (jid : Nat) (q : Int) (i : Item) :
    (if i.item_id == jid then { i with stock_quantity := i.stock_quantity - q } else i).item_id
      = i.item_id := by
  split <;> rfl

lemma adjust1_category (jid : Nat) (q : Int) (i : Item) :
    (if i.item_id == jid then { i with stock_quantity := i.stock_quantity - q } else i).category
      = i.category := by
  split <;> rfl

lemma findItemL_adjustStock (items : List Item) (jid : Nat) (q : Int) (iid : Nat) :
    findItemL (adjustStock items jid q) iid
      = (findItemL items iid).map (fun i =>
          if i.item_id == jid then { i with stock_quantity := i.stock_quantity - q } else i) := by
  unfold findItemL adjustStock
  rw [List.find?_map]
  have hp : ((fun i : Item => i.item_id == iid) ∘ (fun i =>
      if i.item_id == jid then { i with stock_quantity := i.stock_quantity - q } else i))
      = fun i : Item => i.item_id == iid := by
    funext i
    simp only [Function.comp_apply]
    rw [adjust1_id]
  rw [hp]

lemma lineIsSouvenir_adjustStock (items : List Item) (jid : Nat) (q : Int) (l : OrderLine) :
    lineIsSouvenir (adjustStock items jid q) l = lineIsSouvenir items l := by
  unfold lineIsSouvenir
  rw [findItemL_adjustStock]
  cases findItemL items l.item_id with
  | none => rfl
  | some i =>
    show ((if i.item_id == jid then
            { i with stock_quantity := i.stock_quantity - q } else i).category == "Souvenir")
        = (i.category == "Souvenir")
    rw [adjust1_category]

lemma deductAll_cons (items : List Item) (li : OrderLine × Item) (rest : List (OrderLine × Item)) :
    deductAll items (li :: rest) = deductAll (adjustStock items li.1.item_id li.1.quantity) rest :=
  rfl

lemma lineIsSouvenir_deductAll (ls : List (OrderLine × Item)) (items : List Item) (l : OrderLine) :
    lineIsSouvenir (deductAll items ls) l = lineIsSouvenir items l := by
  induction ls generalizing items with
  | nil => rfl
  | cons hd tl ih => rw [deductAll_cons, ih, lineIsSouvenir_adjustStock]

lemma souvenirCountL_deductAll (items : List Item) (ls : List (OrderLine × Item))
    (lines : List OrderLine) (oid : Nat) :
    souvenirCountL (deductAll items ls) lines oid = souvenirCountL items lines oid := by
  unfold souvenirCountL
  refine List.countP_congr ?_
  intro l _
  rw [lineIsSouvenir_deductAll]

lemma souvenirCountL_append (items : List Item) (l₁ l₂ : List OrderLine) (oid : Nat) :
    souvenirCountL items (l₁ ++ l₂) oid
      = souvenirCountL items l₁ oid + souvenirCountL items l₂ oid :=
  List.countP_append ..

lemma souvenirCountL_eq_zero_of_ne (items : List Item) (lines : List OrderLine) (oid : Nat)
    (h : ∀ l ∈ lines, l.order_id ≠ oid) :
    souvenirCountL items lines oid = 0 := by
  unfold souvenirCountL
  rw [List.countP_eq_zero]
  intro l hl
  simp only [Bool.and_eq_true, beq_iff_eq]
  rintro ⟨h1, _⟩
  exact h l hl h1

lemma souvenirCountL_filter_ne (items : List Item) (lines : List OrderLine) (did oid : Nat)
    (h : oid ≠ did) :
    souvenirCountL items (lines.filter (fun l => l.order_id != did)) oid
      = souvenirCountL items lines oid := by
  unfold souvenirCountL
  rw [List.countP_filter]
  refine List.countP_congr ?_
  intro l _
  simp only [Bool.and_eq_true, beq_iff_eq, bne_iff_ne]
  constructor
  · rintro ⟨⟨h1, h2⟩, _⟩
    exact ⟨h1, h2⟩
  · rintro ⟨h1, h2⟩
    exact ⟨⟨h1, h2⟩, h1 ▸ h⟩

lemma insertLines_order_id (oid : Nat) (its : List SaleItemIn) :
    ∀ s : Nat, ∀ l ∈ insertLines oid s its, l.order_id = oid := by
  induction its with
  | nil =>
    intro s l hl
    cases hl
  | cons a rest ih =>
    intro s l hl
    rcases List.mem_cons.mp hl with h | h
    · subst h; rfl
    · exact ih (s + 1) l h

lemma setORFields_order_id (oid : Nat) (orNum : String) (now : Nat) (o : OrderRow) :
    (setORFields oid orNum now o).order_id = o.order_id := by
  unfold setORFields
  split <;> rfl

lemma setJobDateField_order_id (oid now : Nat) (o : OrderRow) :
    (setJobDateField oid now o).order_id = o.order_id := by
  unfold setJobDateField
  split <;> rfl

lemma findOrder_applyORUpdate (db : DB) (oid : Nat) (orNum : String) (now : Nat) (oid' : Nat) :
    findOrder (applyORUpdate db oid orNum now) oid'
      = (findOrder db oid').map (setORFields oid orNum now) := by
  unfold findOrder applyORUpdate
  show (db.orders.map _).find? _ = _
  rw [List.find?_map]
  have hp : ((fun o : OrderRow => o.order_id == oid') ∘ setORFields oid orNum now)
      = fun o : OrderRow => o.order_id == oid' := by
    funext o
    simp only [Function.comp_apply]
    rw [setORFields_order_id]
  rw [hp]

lemma findOrder_applyJobDateUpdate (db : DB) (oid now : Nat) (oid' : Nat) :
    findOrder (applyJobDateUpdate db oid now) oid'
      = (findOrder db oid').map (setJobDateField oid now) := by
  unfold findOrder applyJobDateUpdate
  show (db.orders.map _).find? _ = _
  rw [List.find?_map]
  have hp : ((fun o : OrderRow => o.order_id == oid') ∘ setJobDateField oid now)
      = fun o : OrderRow => o.order_id == oid' := by
    funext o
    simp only [Function.comp_apply]
    rw [setJobDateField_order_id]
  rw [hp]

lemma findOrder_insertSale (db : DB) (p : SaleCreateIn) (total : Int)
    (hwf : ∀ o ∈ db.orders, o.order_id < db.nextOrderId) :
    findOrder (insertSale db p total) db.nextOrderId
      = some { order_id := db.nextOrderId, user_id := p.user_id, total_price := total,
               OR_number := p.OR_number, customer_name := p.customer_name,
               transaction_date := none } := by
  unfold findOrder insertSale
  show (db.orders ++ [_]).find? _ = _
  rw [List.find?_append]
  have h1 : db.orders.find? (fun o => o.order_id == db.nextOrderId) = none := by
    rw [List.find?_eq_none]
    intro o ho
    simp only [beq_iff_eq]
    exact Nat.ne_of_lt (hwf o ho)
  rw [h1]
  simp [List.find?]

/-! ### Inversion lemmas for the four operations -/

lemma create_sale_ok {db : DB} {p : SaleCreateIn} {db' : DB} {oid : Nat}
    (h : create_sale db p = .ok (db', oid)) :
    oid = db.nextOrderId ∧
      ∃ total, validLines db p.items = .ok total ∧ db' = insertSale db p total := by
  unfold create_sale at h
  split at h
  · simp at h
  · split at h
    · simp at h
    · split at h
      · simp at h
      · rename_i total htotal
        split at h
        · rw [Except.ok.injEq, Prod.mk.injEq] at h
          exact ⟨h.2.symm, total, htotal, h.1.symm⟩
        · simp at h

lemma add_or_ok {db : DB} {oid : Nat} {p : ORPayload} {now : Nat} {db' : DB}
    (h : add_or db oid p now = .ok db') :
    ∃ row, findOrder db oid = some row ∧
      (((row.OR_number.isSome = true ∨ 0 < souvenirCount db oid) ∧
          db' = applyORUpdate db oid p.OR_number now)
        ∨ (row.OR_number = none ∧ souvenirCount db oid = 0 ∧
            (joinedLines db oid).find? (fun li => li.2.stock_quantity < li.1.quantity) = none ∧
            db' = applyORUpdate
              { db with items := deductAll db.items (joinedLines db oid),
                        deducted := oid :: db.deducted } oid p.OR_number now)) := by
  unfold add_or at h
  split at h
  · simp at h
  · split at h
    · simp at h
    · rename_i row hrow
      split at h
      · rename_i hguard
        refine ⟨row, hrow, Or.inl ⟨?_, (Except.ok.inj h).symm⟩⟩
        rw [Bool.or_eq_true] at hguard
        rcases hguard with h1 | h1
        · exact Or.inl h1
        · exact Or.inr (of_decide_eq_true h1)
      · rename_i hguard
        rw [Bool.or_eq_true, not_or] at hguard
        have hor : row.OR_number = none := by
          cases hx : row.OR_number with
          | none => rfl
          | some s => rw [hx] at hguard; exact absurd rfl hguard.1
        have hsouv : souvenirCount db oid = 0 := by
          have h2 : isSouvenirOrder db oid ≠ true := hguard.2
          unfold isSouvenirOrder at h2
          exact Nat.eq_zero_of_not_pos (of_decide_eq_false (Bool.eq_false_iff.mpr h2))
        split at h
        · simp at h
        · rename_i hfind
          exact ⟨row, hrow, Or.inr ⟨hor, hsouv, hfind, (Except.ok.inj h).symm⟩⟩

lemma set_joborder_date_ok {db : DB} {oid now : Nat} {db' : DB}
    (h : set_joborder_date db oid now = .ok db') :
    ∃ row, findOrder db oid = some row ∧ souvenirCount db oid ≠ 0 ∧
      ((row.transaction_date.isSome = true ∧ db' = applyJobDateUpdate db oid now)
        ∨ (row.transaction_date = none ∧
            (souvenirLines db oid).find? (fun li => li.2.stock_quantity < li.1.quantity) = none ∧
            db' = applyJobDateUpdate
              { db with items := deductAll db.items (souvenirLines db oid),
                        deducted := oid :: db.deducted } oid now)) := by
  unfold set_joborder_date at h
  split at h
  · simp at h
  · rename_i row hrow
    split at h
    · simp at h
    · rename_i hcnt
      have hne : souvenirCount db oid ≠ 0 := by
        intro h0
        exact hcnt (by rw [h0]; rfl)
      split at h
      · rename_i hdate
        exact ⟨row, hrow, hne, Or.inl ⟨hdate, (Except.ok.inj h).symm⟩⟩
      · rename_i hdate
        have hnone : row.transaction_date = none := by
          cases hx : row.transaction_date with
          | none => rfl
          | some d => rw [hx] at hdate; exact absurd rfl hdate
        split at h
        · simp at h
        · rename_i hfind
          exact ⟨row, hrow, hne, Or.inr ⟨hnone, hfind, (Except.ok.inj h).symm⟩⟩

lemma delete_order_ok {db : DB} {oid : Nat} {db' : DB}
    (h : delete_order db oid = .ok db') :
    (∃ row, findOrder db oid = some row) ∧
      db' = { db with orders := db.orders.filter (fun o => o.order_id != oid),
                      order_lines := db.order_lines.filter (fun l => l.order_id != oid) } := by
  unfold delete_order at h
  split at h
  · simp at h
  · rename_i row hrow
    exact ⟨⟨row, hrow⟩, (Except.ok.inj h).symm⟩

lemma step_create_ok {db : DB} {p : SaleCreateIn} {db' : DB} {oid : Nat}
    (h : create_sale db p = .ok (db', oid)) : step db (.create p) = db' := by
  simp [step, h]

lemma step_addOR_ok {db : DB} {oid : Nat} {p : ORPayload} {now : Nat} {db' : DB}
    (h : add_or db oid p now = .ok db') : step db (.addOR oid p now) = db' := by
  simp [step, h]

lemma step_setJob_ok {db : DB} {oid now : Nat} {db' : DB}
    (h : set_joborder_date db oid now = .ok db') : step db (.setJob oid now) = db' := by
  simp [step, h]

lemma step_del_ok {db : DB} {oid : Nat} {db' : DB}
    (h : delete_order db oid = .ok db') : step db (.del oid) = db' := by
  simp [step, h]

/-! ### Invariant preservation -/

lemma setORFields_eq (oid : Nat) (orNum : String) (now : Nat) (o : OrderRow)
    (h : o.order_id = oid) :
    setORFields oid orNum now o
      = { o with OR_number := some orNum, transaction_date := some now } := by
  unfold setORFields
  rw [if_pos (beq_iff_eq.mpr h)]

lemma setORFields_ne (oid : Nat) (orNum : String) (now : Nat) (o : OrderRow)
    (h : o.order_id ≠ oid) :
    setORFields oid orNum now o = o := by
  unfold setORFields
  rw [if_neg]
  simp only [beq_iff_eq]
  exact h

lemma setJobDateField_eq (oid now : Nat) (o : OrderRow) (h : o.order_id = oid) :
    setJobDateField oid now o
      = { o with transaction_date := some (o.transaction_date.getD now) } := by
  unfold setJobDateField
  rw [if_pos (beq_iff_eq.mpr h)]

lemma setJobDateField_ne (oid now : Nat) (o : OrderRow) (h : o.order_id ≠ oid) :
    setJobDateField oid now o = o := by
  unfold setJobDateField
  rw [if_neg]
  simp only [beq_iff_eq]
  exact h

lemma souvenirCount_deduct (db : DB) (ls : List (OrderLine × Item)) (ded : List Nat) (x : Nat) :
    souvenirCount { db with items := deductAll db.items ls, deducted := ded } x
      = souvenirCount db x :=
  souvenirCountL_deductAll ..

lemma findOrder_id {db : DB} {oid : Nat} {row : OrderRow} (h : findOrder db oid = some row) :
    row.order_id = oid := by
  have := List.find?_some h
  simpa using this

lemma mem_cons_iff_of_ne {x a : Nat} {l : List Nat} (h : x ≠ a) : x ∈ a :: l ↔ x ∈ l := by
  constructor
  · intro hx
    rcases List.mem_cons.mp hx with h1 | h1
    · exact absurd h1 h
    · exact h1
  · exact List.mem_cons_of_mem a

lemma pres_create {db : DB} {p : SaleCreateIn}
    (hwf : WF db) (hinv : DeductionInv db) (hgood : p.OR_number = none) :
    WF (step db (.create p)) ∧ DeductionInv (step db (.create p)) := by
  cases hc : create_sale db p with
  | error e =>
    have : step db (.create p) = db := by simp [step, hc]
    rw [this]
    exact ⟨hwf, hinv⟩
  | ok out =>
    obtain ⟨db', oid⟩ := out
    rw [step_create_ok hc]
    obtain ⟨hoid, total, htot, hdb'⟩ := create_sale_ok hc
    subst hdb'
    constructor
    · refine ⟨?_, ?_, ?_⟩
      · intro o ho
        rcases List.mem_append.mp ho with h | h
        · exact Nat.lt_succ_of_lt (hwf.1 o h)
        · rw [List.mem_singleton.mp h]
          exact Nat.lt_succ_self _
      · intro l hl
        rcases List.mem_append.mp hl with h | h
        · exact Nat.lt_succ_of_lt (hwf.2.1 l h)
        · rw [insertLines_order_id db.nextOrderId p.items db.nextLineId l h]
          exact Nat.lt_succ_self _
      · intro i hi
        exact Nat.lt_succ_of_lt (hwf.2.2 i hi)
    · intro o ho
      rcases List.mem_append.mp ho with h | h
      · have hId : o.order_id ≠ db.nextOrderId := Nat.ne_of_lt (hwf.1 o h)
        have hcnt : souvenirCount (insertSale db p total) o.order_id
            = souvenirCount db o.order_id := by
          show souvenirCountL db.items
              (db.order_lines ++ insertLines db.nextOrderId db.nextLineId p.items) o.order_id = _
          have hz : souvenirCountL db.items
              (insertLines db.nextOrderId db.nextLineId p.items) o.order_id = 0 :=
            souvenirCountL_eq_zero_of_ne _ _ _ (fun l hl => by
              rw [insertLines_order_id db.nextOrderId p.items db.nextLineId l hl]
              exact fun hx => hId hx.symm)
          rw [souvenirCountL_append, hz]
          exact Nat.add_zero _
        obtain ⟨ha, hb⟩ := hinv o h
        exact ⟨ha, by rw [hcnt]; exact hb⟩
      · rw [List.mem_singleton.mp h]
        constructor
        · constructor
          · intro hx
            simp at hx
          · intro hx
            exact absurd (hwf.2.2 _ hx) (Nat.lt_irrefl _)
        · intro _
          rw [hgood]
          exact Iff.rfl

lemma pres_addOR {db : DB} {oid : Nat} {p : ORPayload} {now : Nat}
    (hwf : WF db) (hinv : DeductionInv db) (hgood : souvenirCount db oid = 0) :
    WF (step db (.addOR oid p now)) ∧ DeductionInv (step db (.addOR oid p now)) := by
  cases hc : add_or db oid p now with
  | error e =>
    have : step db (.addOR oid p now) = db := by simp [step, hc]
    rw [this]
    exact ⟨hwf, hinv⟩
  | ok db' =>
    rw [step_addOR_ok hc]
    obtain ⟨row, hrow, hcases⟩ := add_or_ok hc
    have hrowmem : row ∈ db.orders := List.mem_of_find?_eq_some hrow
    have hrowid : row.order_id = oid := findOrder_id hrow
    rcases hcases with ⟨hguard, hdb'⟩ | ⟨hor, hsouv, hfind, hdb'⟩
    · -- guard failed: no deduction, fields still overwritten
      have horsome : row.OR_number.isSome = true := by
        rcases hguard with h1 | h1
        · exact h1
        · rw [hgood] at h1
          exact absurd h1 (Nat.lt_irrefl 0)
      have hrowinv := hinv row hrowmem
      have hdate : row.transaction_date.isSome = true :=
        (hrowinv.2 (by rw [hrowid]; exact hgood)).mp horsome
      have hded : oid ∈ db.deducted := hrowid ▸ (hrowinv.1.mp hdate)
      subst hdb'
      refine ⟨⟨?_, hwf.2.1, hwf.2.2⟩, ?_⟩
      · intro o ho
        rcases List.mem_map.mp ho with ⟨o0, ho0, rfl⟩
        rw [setORFields_order_id]
        exact hwf.1 o0 ho0
      · intro o ho
        rcases List.mem_map.mp ho with ⟨o0, ho0, rfl⟩
        obtain ⟨ha0, hb0⟩ := hinv o0 ho0
        by_cases hx : o0.order_id = oid
        · rw [setORFields_eq _ _ _ _ hx]
          exact ⟨⟨fun _ => hx ▸ hded, fun _ => rfl⟩, fun _ => Iff.rfl⟩
        · rw [setORFields_ne _ _ _ _ hx]
          exact ⟨ha0, fun hz => hb0 hz⟩
    · -- guard passed: deduction runs, ghost mark added
      subst hdb'
      have hcnt : ∀ x, souvenirCount (applyORUpdate
          { db with items := deductAll db.items (joinedLines db oid),
                    deducted := oid :: db.deducted } oid p.OR_number now) x
          = souvenirCount db x := by
        intro x
        show souvenirCount { db with items := deductAll db.items (joinedLines db oid),
                                     deducted := oid :: db.deducted } x = _
        exact souvenirCount_deduct db (joinedLines db oid) (oid :: db.deducted) x
      refine ⟨⟨?_, hwf.2.1, ?_⟩, ?_⟩
      · intro o ho
        rcases List.mem_map.mp ho with ⟨o0, ho0, rfl⟩
        rw [setORFields_order_id]
        exact hwf.1 o0 ho0
      · intro i hi
        rcases List.mem_cons.mp hi with h1 | h1
        · rw [h1, ← hrowid]
          exact hwf.1 row hrowmem
        · exact hwf.2.2 i h1
      · intro o ho
        rcases List.mem_map.mp ho with ⟨o0, ho0, rfl⟩
        obtain ⟨ha0, hb0⟩ := hinv o0 ho0
        by_cases hx : o0.order_id = oid
        · rw [setORFields_eq _ _ _ _ hx]
          refine ⟨⟨fun _ => ?_, fun _ => rfl⟩, fun _ => Iff.rfl⟩
          show o0.order_id ∈ oid :: db.deducted
          rw [hx]
          exact List.mem_cons_self _ _
        · rw [setORFields_ne _ _ _ _ hx]
          refine ⟨?_, ?_⟩
          · show o0.transaction_date.isSome = true ↔ o0.order_id ∈ oid :: db.deducted
            rw [mem_cons_iff_of_ne hx]
            exact ha0
          · intro hz
            rw [hcnt] at hz
            exact hb0 hz

lemma pres_setJob {db : DB} {oid now : Nat}
    (hwf : WF db) (hinv : DeductionInv db) :
    WF (step db (.setJob oid now)) ∧ DeductionInv (step db (.setJob oid now)) := by
  cases hc : set_joborder_date db oid now with
  | error e =>
    have : step db (.setJob oid now) = db := by simp [step, hc]
    rw [this]
    exact ⟨hwf, hinv⟩
  | ok db' =>
    rw [step_setJob_ok hc]
    obtain ⟨row, hrow, hne, hcases⟩ := set_joborder_date_ok hc
    have hrowmem : row ∈ db.orders := List.mem_of_find?_eq_some hrow
    have hrowid : row.order_id = oid := findOrder_id hrow
    rcases hcases with ⟨hdate, hdb'⟩ | ⟨hnone, hfind, hdb'⟩
    · -- repeat call: timestamp already set, no deduction
      have hded : oid ∈ db.deducted := hrowid ▸ ((hinv row hrowmem).1.mp hdate)
      subst hdb'
      refine ⟨⟨?_, hwf.2.1, hwf.2.2⟩, ?_⟩
      · intro o ho
        rcases List.mem_map.mp ho with ⟨o0, ho0, rfl⟩
        rw [setJobDateField_order_id]
        exact hwf.1 o0 ho0
      · intro o ho
        rcases List.mem_map.mp ho with ⟨o0, ho0, rfl⟩
        obtain ⟨ha0, hb0⟩ := hinv o0 ho0
        by_cases hx : o0.order_id = oid
        · rw [setJobDateField_eq _ _ _ hx]
          refine ⟨⟨fun _ => hx ▸ hded, fun _ => rfl⟩, fun hz => absurd (hx ▸ hz) hne⟩
        · rw [setJobDateField_ne _ _ _ hx]
          exact ⟨ha0, fun hz => hb0 hz⟩
    · -- first completion: deduction of Souvenir lines
      subst hdb'
      have hcnt : ∀ x, souvenirCount (applyJobDateUpdate
          { db with items := deductAll db.items (souvenirLines db oid),
                    deducted := oid :: db.deducted } oid now) x
          = souvenirCount db x := by
        intro x
        show souvenirCount { db with items := deductAll db.items (souvenirLines db oid),
                                     deducted := oid :: db.deducted } x = _
        exact souvenirCount_deduct db (souvenirLines db oid) (oid :: db.deducted) x
      refine ⟨⟨?_, hwf.2.1, ?_⟩, ?_⟩
      · intro o ho
        rcases List.mem_map.mp ho with ⟨o0, ho0, rfl⟩
        rw [setJobDateField_order_id]
        exact hwf.1 o0 ho0
      · intro i hi
        rcases List.mem_cons.mp hi with h1 | h1
        · rw [h1, ← hrowid]
          exact hwf.1 row hrowmem
        · exact hwf.2.2 i h1
      · intro o ho
        rcases List.mem_map.mp ho with ⟨o0, ho0, rfl⟩
        obtain ⟨ha0, hb0⟩ := hinv o0 ho0
        by_cases hx : o0.order_id = oid
        · rw [setJobDateField_eq _ _ _ hx]
          refine ⟨⟨fun _ => ?_, fun _ => rfl⟩, fun hz => ?_⟩
          · show o0.order_id ∈ oid :: db.deducted
            rw [hx]
            exact List.mem_cons_self _ _
          · rw [hcnt, hx] at hz
            exact absurd hz hne
        · rw [setJobDateField_ne _ _ _ hx]
          refine ⟨?_, fun hz => ?_⟩
          · show o0.transaction_date.isSome = true ↔ o0.order_id ∈ oid :: db.deducted
            rw [mem_cons_iff_of_ne hx]
            exact ha0
          · rw [hcnt] at hz
            exact hb0 hz

lemma pres_del {db : DB} {oid : Nat}
    (hwf : WF db) (hinv : DeductionInv db) :
    WF (step db (.del oid)) ∧ DeductionInv (step db (.del oid)) := by
  cases hc : delete_order db oid with
  | error e =>
    have : step db (.del oid) = db := by simp [step, hc]
    rw [this]
    exact ⟨hwf, hinv⟩
  | ok db' =>
    rw [step_del_ok hc]
    obtain ⟨-, hdb'⟩ := delete_order_ok hc
    subst hdb'
    refine ⟨⟨?_, ?_, hwf.2.2⟩, ?_⟩
    · intro o ho
      exact hwf.1 o (List.mem_filter.mp ho).1
    · intro l hl
      exact hwf.2.1 l (List.mem_filter.mp hl).1
    · intro o ho
      obtain ⟨ho0, hne0⟩ := List.mem_filter.mp ho
      have hne : o.order_id ≠ oid := by
        simpa using hne0
      obtain ⟨ha0, hb0⟩ := hinv o ho0
      refine ⟨ha0, fun hz => hb0 ?_⟩
      have heq : souvenirCountL db.items (db.order_lines.filter (fun l => l.order_id != oid))
          o.order_id = souvenirCountL db.items db.order_lines o.order_id :=
        souvenirCountL_filter_ne db.items db.order_lines oid o.order_id hne
      show souvenirCountL db.items db.order_lines o.order_id = 0
      rw [← heq]
      exact hz

lemma pres_step {db : DB} {op : Op} (hwf : WF db) (hinv : DeductionInv db)
    (hgood : goodOp db op) :
    WF (step db op) ∧ DeductionInv (step db op) := by
  cases op with
  | create p => exact pres_create hwf hinv hgood
  | addOR oid p now => exact pres_addOR hwf hinv hgood
  | setJob oid now => exact pres_setJob hwf hinv
  | del oid => exact pres_del hwf hinv

lemma pres_run {db : DB} {ops : List Op} (hwf : WF db) (hinv : DeductionInv db)
    (hgood : goodTrace db ops) : WF (run db ops) ∧ DeductionInv (run db ops) := by
  induction ops generalizing db with
  | nil => exact ⟨hwf, hinv⟩
  | cons op rest ih =>
    obtain ⟨h1, h2⟩ := hgood
    obtain ⟨hw, hi⟩ := pres_step hwf hinv h1
    exact ih hw hi h2

/-! ### Stock-frame and repeat-call lemmas -/

lemma findItemL_adjustStock_ne (items : List Item) (jid : Nat) (q : Int) (iid : Nat)
    (h : jid ≠ iid) :
    findItemL (adjustStock items jid q) iid = findItemL items iid := by
  rw [findItemL_adjustStock]
  cases hf : findItemL items iid with
  | none => rfl
  | some i =>
    have hid : i.item_id = iid := by
      have := List.find?_some hf
      simpa using this
    show some (if i.item_id == jid then
        { i with stock_quantity := i.stock_quantity - q } else i) = some i
    rw [if_neg]
    simp only [beq_iff_eq]
    rw [hid]
    exact fun hx => h hx.symm

lemma findItemL_deductAll_ne (ls : List (OrderLine × Item)) (items : List Item) (iid : Nat)
    (h : ∀ li ∈ ls, li.1.item_id ≠ iid) :
    findItemL (deductAll items ls) iid = findItemL items iid := by
  induction ls generalizing items with
  | nil => rfl
  | cons hd tl ih =>
    rw [deductAll_cons, ih _ (fun li hli => h li (List.mem_cons_of_mem hd hli)),
        findItemL_adjustStock_ne items hd.1.item_id hd.1.quantity iid
          (h hd (List.mem_cons_self hd tl))]

lemma addOR_preserves_of_or_set {db : DB} {oid : Nat} {p : ORPayload} {now : Nat} {db' : DB}
    (hset : ∃ row, findOrder db oid = some row ∧ row.OR_number.isSome = true)
    (h : add_or db oid p now = .ok db') :
    db'.items = db.items ∧
      ∃ row', findOrder db' oid = some row' ∧ row'.OR_number.isSome = true := by
  obtain ⟨row, hrow, hisSome⟩ := hset
  obtain ⟨row0, hrow0, hcases⟩ := add_or_ok h
  rw [hrow] at hrow0
  have heqr : row = row0 := Option.some.inj hrow0
  rcases hcases with ⟨-, hdb'⟩ | ⟨hor, -, -, -⟩
  · subst hdb'
    refine ⟨rfl, ?_⟩
    rw [findOrder_applyORUpdate, hrow]
    refine ⟨setORFields oid p.OR_number now row, rfl, ?_⟩
    rw [setORFields_eq _ _ _ _ (findOrder_id hrow)]
    rfl
  · rw [heqr, hor] at hisSome
    simp at hisSome

lemma addOR_sets_or {db : DB} {oid : Nat} {p : ORPayload} {now : Nat} {db' : DB}
    (h : add_or db oid p now = .ok db') :
    ∃ row', findOrder db' oid = some row' ∧ row'.OR_number.isSome = true := by
  obtain ⟨row, hrow, hcases⟩ := add_or_ok h
  have hfind : findOrder db' oid = some (setORFields oid p.OR_number now row) := by
    rcases hcases with ⟨-, hdb'⟩ | ⟨-, -, -, hdb'⟩ <;>
      (subst hdb'; rw [findOrder_applyORUpdate]; show (findOrder db oid).map _ = _;
       rw [hrow]; rfl)
  refine ⟨setORFields oid p.OR_number now row, hfind, ?_⟩
  rw [setORFields_eq _ _ _ _ (findOrder_id hrow)]
  rfl

lemma setJob_preserves_of_date_set {db : DB} {oid now : Nat} {db' : DB}
    (hset : ∃ row, findOrder db oid = some row ∧ row.transaction_date.isSome = true)
    (h : set_joborder_date db oid now = .ok db') :
    db'.items = db.items ∧
      ∃ row', findOrder db' oid = some row' ∧ row'.transaction_date.isSome = true := by
  obtain ⟨row, hrow, hisSome⟩ := hset
  obtain ⟨row0, hrow0, -, hcases⟩ := set_joborder_date_ok h
  rw [hrow] at hrow0
  have heqr : row = row0 := Option.some.inj hrow0
  rcases hcases with ⟨-, hdb'⟩ | ⟨hnone, -, -⟩
  · subst hdb'
    refine ⟨rfl, ?_⟩
    rw [findOrder_applyJobDateUpdate, hrow]
    refine ⟨setJobDateField oid now row, rfl, ?_⟩
    rw [setJobDateField_eq _ _ _ (findOrder_id hrow)]
    rfl
  · rw [heqr, hnone] at hisSome
    simp at hisSome

lemma setJob_sets_date {db : DB} {oid now : Nat} {db' : DB}
    (h : set_joborder_date db oid now = .ok db') :
    ∃ row', findOrder db' oid = some row' ∧ row'.transaction_date.isSome = true := by
  obtain ⟨row, hrow, -, hcases⟩ := set_joborder_date_ok h
  have hfind : findOrder db' oid = some (setJobDateField oid now row) := by
    rcases hcases with ⟨-, hdb'⟩ | ⟨-, -, hdb'⟩ <;>
      (subst hdb'; rw [findOrder_applyJobDateUpdate]; show (findOrder db oid).map _ = _;
       rw [hrow]; rfl)
  refine ⟨setJobDateField oid now row, hfind, ?_⟩
  rw [setJobDateField_eq _ _ _ (findOrder_id hrow)]
  rfl

lemma run_addORs_items {oid : Nat} :
    ∀ (calls : List (ORPayload × Nat)) (db : DB),
      (∃ row, findOrder db oid = some row ∧ row.OR_number.isSome = true) →
      (run db (calls.map (fun c => Op.addOR oid c.1 c.2))).items = db.items := by
  intro calls
  induction calls with
  | nil => intro db _; rfl
  | cons c rest ih =>
    intro db hset
    show (run (step db (.addOR oid c.1 c.2)) (rest.map (fun c => Op.addOR oid c.1 c.2))).items
        = db.items
    cases hc : add_or db oid c.1 c.2 with
    | error e =>
      have hstep : step db (.addOR oid c.1 c.2) = db := by simp [step, hc]
      rw [hstep]
      exact ih db hset
    | ok db1 =>
      obtain ⟨hitems, hset'⟩ := addOR_preserves_of_or_set hset hc
      rw [step_addOR_ok hc, ih db1 hset', hitems]

lemma run_setJobs_items {oid : Nat} :
    ∀ (nows : List Nat) (db : DB),
      (∃ row, findOrder db oid = some row ∧ row.transaction_date.isSome = true) →
      (run db (nows.map (fun t => Op.setJob oid t))).items = db.items := by
  intro nows
  induction nows with
  | nil => intro db _; rfl
  | cons t rest ih =>
    intro db hset
    show (run (step db (.setJob oid t)) (rest.map (fun t => Op.setJob oid t))).items = db.items
    cases hc : set_joborder_date db oid t with
    | error e =>
      have hstep : step db (.setJob oid t) = db := by simp [step, hc]
      rw [hstep]
      exact ih db hset
    | ok db1 =>
      obtain ⟨hitems, hset'⟩ := setJob_preserves_of_date_set hset hc
      rw [step_setJob_ok hc, ih db1 hset', hitems]

/-! ### Claim theorems -/

/-- C1 (amended): for every successful FinalizeNormal (`add_or`) call on an
existing order, the stock-deduction pass runs if and only if the pre-call
value of the receipt field (`OR_number`) of the order is null and the order has no
Souvenir line; the guard reads the receipt field, not the completion
timestamp. -/
theorem addOR_guard_is_receipt_field (db : DB) (oid : Nat) (p : ORPayload) (now : Nat)
    (db' : DB) (h : add_or db oid p now = .ok db') :
    ∃ row, findOrder db oid = some row ∧
      ((row.OR_number = none ∧ souvenirCount db oid = 0 →
          db'.deducted = oid :: db.deducted) ∧
       (row.OR_number ≠ none ∨ souvenirCount db oid ≠ 0 →
          db'.deducted = db.deducted ∧ db'.items = db.items)) := by
  obtain ⟨row, hrow, hcases⟩ := add_or_ok h
  refine ⟨row, hrow, ?_, ?_⟩
  · rintro ⟨hor, hsouv⟩
    rcases hcases with ⟨hguard, hdb'⟩ | ⟨-, -, -, hdb'⟩
    · exfalso
      rcases hguard with h1 | h1
      · rw [hor] at h1
        simp at h1
      · rw [hsouv] at h1
        exact absurd h1 (Nat.lt_irrefl 0)
    · subst hdb'
      rfl
  · intro hne
    rcases hcases with ⟨-, hdb'⟩ | ⟨hor, hsouv, -, hdb'⟩
    · subst hdb'
      exact ⟨rfl, rfl⟩
    · rcases hne with h1 | h1
      · exact absurd hor h1
      · exact absurd hsouv h1

/-- C1 witness: on the concrete first FinalizeNormal call of the normal
scenario the guard passes and the deduction pass runs. -/
theorem addOR_guard_is_receipt_field_witness :
    dbNorm2.deducted = 1 :: dbNorm1.deducted := by
  obtain ⟨row, hrow, h1, h2⟩ :=
    addOR_guard_is_receipt_field dbNorm1 1 ⟨"R1"⟩ 5 dbNorm2 (by decide)
  have hr : findOrder dbNorm1 1 = some ⟨1, 1, 400, none, "Ana", none⟩ := by decide
  rw [hr] at hrow
  have heqr : row = ⟨1, 1, 400, none, "Ana", none⟩ := (Option.some.inj hrow).symm
  subst heqr
  exact h1 ⟨rfl, by decide⟩

/-- C1 counterexample: order 1 of `dbPre1` was created with a receipt supplied
at intake, so before the FinalizeNormal call its completion timestamp is null,
it has a non-empty non-Souvenir line, and yet the successful call performs no
deduction — the claim "deduction iff pre-call completion timestamp null (and
no deferred line)" is false on this input. -/
theorem addOR_guard_not_timestamp_cex :
    (findOrder dbPre1 1).map (fun o => o.transaction_date) = some none ∧
    souvenirCount dbPre1 1 = 0 ∧
    (joinedLines dbPre1 1).map (fun li => (li.1.item_id, li.1.quantity)) = [(1, 4)] ∧
    add_or dbPre1 1 ⟨"R9"⟩ 5 = .ok dbPre2 ∧
    dbPre2.items = dbPre1.items ∧
    dbPre2.deducted = dbPre1.deducted := by decide

/-- C2 (amended): provided every draft is created without a receipt
identifier and FinalizeNormal is invoked only on orders with no Souvenir
line, then after any sequence of the four operations every existing order has
had its stock-deduction pass executed if and only if its completion timestamp
is non-null. -/
theorem deducted_iff_completed_of_goodTrace (db : DB) (ops : List Op)
    (hwf : WF db) (hinv : DeductionInv db) (hgood : goodTrace db ops) :
    ∀ o ∈ (run db ops).orders,
      (o.transaction_date.isSome = true ↔ o.order_id ∈ (run db ops).deducted) := by
  intro o ho
  exact ((pres_run hwf hinv hgood).2 o ho).1

/-- C2 witness: the invariant applied to the concrete two-step good trace. -/
theorem deducted_iff_completed_witness : 1 ∈ dbNorm2.deducted := by
  have h := deducted_iff_completed_of_goodTrace baseDB
    [.create pNormal, .addOR 1 ⟨"R1"⟩ 5] (by decide) (by decide)
    ⟨by decide, by decide, trivial⟩
  have hmem : (⟨1, 1, 400, some "R1", "Ana", some 5⟩ : OrderRow)
      ∈ (run baseDB [.create pNormal, .addOR 1 ⟨"R1"⟩ 5]).orders := by decide
  exact (h _ hmem).mp (by decide)

/-- C2 counterexample: after CreateDraftSale with a receipt supplied at
intake followed by FinalizeNormal, order 1 has a non-null completion
timestamp but stock was never deducted for its line of 4 units (stock is
still 10 and the deduction pass never ran). -/
theorem completed_without_deduction_cex :
    (findOrder dbPre2 1).map (fun o => o.transaction_date) = some (some 5) ∧
    dbPre2.deducted = [] ∧
    stockOf dbPre2 1 = some 10 ∧
    (joinedLines dbPre2 1).map (fun li => (li.1.item_id, li.1.quantity)) = [(1, 4)] ∧
    souvenirCount dbPre2 1 = 0 := by decide

/-- C3: an order created with a non-null OR_number in the intake payload is
not stock-deducted by a subsequent first FinalizeNormal call (the guard reads
the receipt field as already set), yet the call succeeds and sets the
completion timestamp. -/
theorem intake_receipt_skips_first_deduction (db : DB) (p : SaleCreateIn) (r : String)
    (db₁ : DB) (oid : Nat) (pl : ORPayload) (now : Nat) (db₂ : DB)
    (hwf : ∀ o ∈ db.orders, o.order_id < db.nextOrderId)
    (hp : p.OR_number = some r)
    (h₁ : create_sale db p = .ok (db₁, oid))
    (h₂ : add_or db₁ oid pl now = .ok db₂) :
    db₂.items = db₁.items ∧ db₂.deducted = db₁.deducted ∧
      (findOrder db₂ oid).map (fun o => o.transaction_date) = some (some now) := by
  obtain ⟨hoid, total, htot, hdb₁⟩ := create_sale_ok h₁
  subst hdb₁
  subst hoid
  have hfind := findOrder_insertSale db p total hwf
  obtain ⟨row, hrow, hcases⟩ := add_or_ok h₂
  rw [hfind] at hrow
  have heqr : row = ⟨db.nextOrderId, p.user_id, total, p.OR_number, p.customer_name, none⟩ :=
    (Option.some.inj hrow).symm
  rcases hcases with ⟨-, hdb₂⟩ | ⟨hor, -, -, -⟩
  · subst hdb₂
    refine ⟨rfl, rfl, ?_⟩
    rw [findOrder_applyORUpdate, hfind]
    show some ((setORFields _ _ _ _).transaction_date) = _
    rw [setORFields_eq db.nextOrderId pl.OR_number now
        ⟨db.nextOrderId, p.user_id, total, p.OR_number, p.customer_name, none⟩ rfl]
  · exfalso
    rw [heqr] at hor
    have : p.OR_number = none := hor
    rw [hp] at this
    simp at this

/-- C3 witness: the concrete intake-with-receipt scenario. -/
theorem intake_receipt_skips_first_deduction_witness :
    dbPre2.items = dbPre1.items ∧ dbPre2.deducted = dbPre1.deducted ∧
      (findOrder dbPre2 1).map (fun o => o.transaction_date) = some (some 5) :=
  intake_receipt_skips_first_deduction baseDB pPreOR "R0" dbPre1 1 ⟨"R9"⟩ 5 dbPre2
    (by decide) (by decide) (by decide) (by decide)

/-- C4 (evaluation of the failing input): a draft with two lines for the same
item passes intake validation (each line alone fits the stock of 10) and its
FinalizeNormal call also passes validation, because every line is compared
against the same stock snapshot; the cumulative deduction then drives the
stock to −3, violating the no-oversell invariant. -/
theorem duplicate_item_lines_oversell :
    stockOf baseDB 1 = some 10 ∧
    create_sale baseDB pTwoLines = .ok (dbOver1, 1) ∧
    stockOf dbOver1 1 = some 10 ∧
    add_or dbOver1 1 ⟨"R1"⟩ 7 = .ok dbOver2 ∧
    stockOf dbOver2 1 = some (-3) := by decide

/-- C5: after one successful call of the applicable finalizer, any sequence
of further calls of that same finalizer on the same order leaves all item
stock exactly as it was: the first success leaves the guard field non-null,
so no later call ever re-enters the deduction branch. -/
theorem repeated_finalizer_preserves_stock :
    (∀ (db : DB) (oid : Nat) (p : ORPayload) (now : Nat) (db₁ : DB),
      add_or db oid p now = .ok db₁ →
      ∀ calls : List (ORPayload × Nat),
        (run db₁ (calls.map (fun c => Op.addOR oid c.1 c.2))).items = db₁.items) ∧
    (∀ (db : DB) (oid now : Nat) (db₁ : DB),
      set_joborder_date db oid now = .ok db₁ →
      ∀ nows : List Nat,
        (run db₁ (nows.map (fun t => Op.setJob oid t))).items = db₁.items) := by
  constructor
  · intro db oid p now db₁ h calls
    exact run_addORs_items calls db₁ (addOR_sets_or h)
  · intro db oid now db₁ h nows
    exact run_setJobs_items nows db₁ (setJob_sets_date h)

/-- C5 witness: one repeat FinalizeNormal call and one repeat
FinalizeJobOrder call on concretely finalized orders change no stock. -/
theorem repeated_finalizer_preserves_stock_witness :
    (run dbNorm2 ([(⟨"R2"⟩, 6)].map (fun c : ORPayload × Nat => Op.addOR 1 c.1 c.2))).items
        = dbNorm2.items ∧
    (run dbSouv2 ([9].map (fun t => Op.setJob 1 t))).items = dbSouv2.items :=
  ⟨repeated_finalizer_preserves_stock.1 dbNorm1 1 ⟨"R1"⟩ 5 dbNorm2 (by decide) [(⟨"R2"⟩, 6)],
   repeated_finalizer_preserves_stock.2 dbSouv1 1 5 dbSouv2 (by decide) [9]⟩

/-- C6 (amended): FinalizeNormal supplying a non-empty receipt identifier
already held by another order fails with DuplicateReceipt and rolls back
(state unchanged).  Uniqueness is only enforced on this path: the intake
endpoint inserts caller-supplied receipts unchecked (see the
counterexample). -/
theorem duplicate_receipt_rejected (db : DB) (oid : Nat) (r : String) (now : Nat)
    (hr : r ≠ "") (hdup : hasDuplicateOR db oid r = true) :
    add_or db oid ⟨r⟩ now = .error ⟨400, "OR is not unique"⟩ ∧
      step db (.addOR oid ⟨r⟩ now) = db := by
  have hcond : ((ORPayload.mk r).OR_number != "" && hasDuplicateOR db oid r) = true := by
    rw [Bool.and_eq_true]
    exact ⟨bne_iff_ne.mpr hr, hdup⟩
  have h1 : add_or db oid ⟨r⟩ now = .error ⟨400, "OR is not unique"⟩ := by
    unfold add_or
    rw [if_pos hcond]
  exact ⟨h1, by simp [step, h1]⟩

/-- C6 witness: the duplicate-receipt rejection at a concrete state. -/
theorem duplicate_receipt_rejected_witness :
    add_or dbX2 2 ⟨"X"⟩ 4 = .error ⟨400, "OR is not unique"⟩ ∧
      step dbX2 (.addOR 2 ⟨"X"⟩ 4) = dbX2 :=
  duplicate_receipt_rejected dbX2 2 "X" 4 (by decide) (by decide)

/-- C6 counterexample: two CreateDraftSale calls both carrying receipt "X"
produce two distinct orders holding the same non-null receipt identifier —
the uniqueness invariant claimed for all operation sequences is false. -/
theorem intake_allows_duplicate_receipts_cex :
    (findOrder dbX2 1).map (fun o => o.OR_number) = some (some "X") ∧
    (findOrder dbX2 2).map (fun o => o.OR_number) = some (some "X") ∧
    (1 : Nat) ≠ 2 := by decide

/-- C7: (a) a successful FinalizeNormal call on an order containing at least
one Souvenir line deducts nothing (all item rows unchanged, even for the
non-Souvenir lines); (b) a successful FinalizeJobOrder call changes the stock
of no item outside the Souvenir-joined lines of the order; (c) FinalizeJobOrder on
an existing order with zero Souvenir lines fails with InvalidState and rolls
back. -/
theorem category_routing :
    (∀ (db : DB) (oid : Nat) (p : ORPayload) (now : Nat) (db' : DB),
        0 < souvenirCount db oid → add_or db oid p now = .ok db' →
        db'.items = db.items) ∧
    (∀ (db : DB) (oid now : Nat) (db' : DB),
        set_joborder_date db oid now = .ok db' →
        ∀ iid : Nat, (∀ li ∈ souvenirLines db oid, li.1.item_id ≠ iid) →
          stockOf db' iid = stockOf db iid) ∧
    (∀ (db : DB) (oid now : Nat) (row : OrderRow),
        findOrder db oid = some row → souvenirCount db oid = 0 →
        set_joborder_date db oid now
            = .error ⟨400, "Order does not contain any \x27Souvenir\x27 items"⟩ ∧
          step db (.setJob oid now) = db) := by
  refine ⟨?_, ?_, ?_⟩
  · intro db oid p now db' hpos h
    obtain ⟨row, hrow, hcases⟩ := add_or_ok h
    rcases hcases with ⟨-, hdb'⟩ | ⟨-, hsouv, -, -⟩
    · subst hdb'
      rfl
    · rw [hsouv] at hpos
      exact absurd hpos (Nat.lt_irrefl 0)
  · intro db oid now db' h iid hout
    obtain ⟨row, hrow, -, hcases⟩ := set_joborder_date_ok h
    rcases hcases with ⟨-, hdb'⟩ | ⟨-, -, hdb'⟩
    · subst hdb'
      rfl
    · subst hdb'
      show (findItemL (deductAll db.items (souvenirLines db oid)) iid).map _
          = (findItemL db.items iid).map _
      rw [findItemL_deductAll_ne (souvenirLines db oid) db.items iid hout]
  · intro db oid now row hrow h0
    have h1 : set_joborder_date db oid now
        = .error ⟨400, "Order does not contain any \x27Souvenir\x27 items"⟩ := by
      unfold set_joborder_date
      simp only [hrow, h0]
      rfl
    exact ⟨h1, by simp [step, h1]⟩

/-- C7 witness: (a) FinalizeNormal on the concrete Souvenir order deducts
nothing; (b) FinalizeJobOrder on it leaves the stock of the non-Souvenir item
unchanged; (c) FinalizeJobOrder on the concrete normal order is rejected. -/
theorem category_routing_witness :
    dbSouvOR.items = dbSouv1.items ∧
    stockOf dbSouv2 1 = stockOf dbSouv1 1 ∧
    (set_joborder_date dbNorm1 1 3
        = .error ⟨400, "Order does not contain any \x27Souvenir\x27 items"⟩ ∧
      step dbNorm1 (.setJob 1 3) = dbNorm1) := by
  refine ⟨?_, ?_, ?_⟩
  · exact category_routing.1 dbSouv1 1 ⟨"R5"⟩ 4 dbSouvOR (by decide) (by decide)
  · exact category_routing.2.1 dbSouv1 1 5 dbSouv2 (by decide) 1 (by decide)
  · exact category_routing.2.2 dbNorm1 1 3 ⟨1, 1, 400, none, "Ana", none⟩
      (by decide) (by decide)

/-- C8: CreateDraftSale never writes any item row — on success the item table
is unchanged and the new header and lines are appended atomically; on any
failure the transaction rolls back and nothing persists. -/
theorem draft_sale_preserves_stock :
    (∀ (db : DB) (p : SaleCreateIn) (db' : DB) (oid : Nat),
        create_sale db p = .ok (db', oid) →
        db'.items = db.items ∧ oid = db.nextOrderId ∧
          ∃ total, db' = insertSale db p total) ∧
    (∀ (db : DB) (p : SaleCreateIn) (e : HTTPError),
        create_sale db p = .error e → step db (.create p) = db) := by
  constructor
  · intro db p db' oid h
    obtain ⟨hoid, total, htot, hdb'⟩ := create_sale_ok h
    subst hdb'
    exact ⟨rfl, hoid, total, rfl⟩
  · intro db p e h
    simp [step, h]

/-- C8 witness: a successful concrete draft leaves the item table unchanged. -/
theorem draft_sale_preserves_stock_witness : dbNorm1.items = baseDB.items :=
  (draft_sale_preserves_stock.1 baseDB pNormal dbNorm1 1 (by decide)).1

/-- C9 (amended): FinalizeJobOrder never changes a non-null completion
timestamp (COALESCE write); FinalizeNormal however sets the completion
timestamp to the current time of the call on every successful call, overwriting
any previous value. -/
theorem completion_timestamp_policy :
    (∀ (db : DB) (oid now : Nat) (db' : DB) (d : Nat),
        set_joborder_date db oid now = .ok db' →
        (findOrder db oid).map (fun o => o.transaction_date) = some (some d) →
        (findOrder db' oid).map (fun o => o.transaction_date) = some (some d)) ∧
    (∀ (db : DB) (oid : Nat) (p : ORPayload) (now : Nat) (db' : DB),
        add_or db oid p now = .ok db' →
        (findOrder db' oid).map (fun o => o.transaction_date) = some (some now)) := by
  constructor
  · intro db oid now db' d h hd
    obtain ⟨row, hrow, -, hcases⟩ := set_joborder_date_ok h
    rw [hrow] at hd
    have hdate : row.transaction_date = some d := Option.some.inj hd
    rcases hcases with ⟨-, hdb'⟩ | ⟨hnone, -, -⟩
    · subst hdb'
      rw [findOrder_applyJobDateUpdate, hrow]
      show some ((setJobDateField oid now row).transaction_date) = _
      rw [setJobDateField_eq _ _ _ (findOrder_id hrow), hdate]
      rfl
    · rw [hnone] at hdate
      simp at hdate
  · intro db oid p now db' h
    obtain ⟨row, hrow, hcases⟩ := add_or_ok h
    have hfind : findOrder db' oid = some (setORFields oid p.OR_number now row) := by
      rcases hcases with ⟨-, hdb'⟩ | ⟨-, -, -, hdb'⟩ <;>
        (subst hdb'; rw [findOrder_applyORUpdate]; show (findOrder db oid).map _ = _;
         rw [hrow]; rfl)
    rw [hfind]
    show some ((setORFields oid p.OR_number now row).transaction_date) = _
    rw [setORFields_eq _ _ _ _ (findOrder_id hrow)]

/-- C9 witness: a repeated FinalizeJobOrder call keeps the timestamp 5, and a
successful FinalizeNormal call writes the call time 5. -/
theorem completion_timestamp_policy_witness :
    (findOrder dbSouv3 1).map (fun o => o.transaction_date) = some (some 5) ∧
    (findOrder dbNorm2 1).map (fun o => o.transaction_date) = some (some 5) :=
  ⟨completion_timestamp_policy.1 dbSouv2 1 9 dbSouv3 5 (by decide) (by decide),
   completion_timestamp_policy.2 dbNorm1 1 ⟨"R1"⟩ 5 dbNorm2 (by decide)⟩

/-- C9 counterexample: order 1 is completed at time 5, yet a second successful
FinalizeNormal call at time 6 changes the completion timestamp from 5 to 6 —
the claim that the timestamp, once non-null, is never changed is false. -/
theorem addOR_overwrites_timestamp_cex :
    (findOrder dbNorm2 1).map (fun o => o.transaction_date) = some (some 5) ∧
    add_or dbNorm2 1 ⟨"R2"⟩ 6 = .ok dbNorm3 ∧
    (findOrder dbNorm3 1).map (fun o => o.transaction_date) = some (some 6) := by decide

/-- C10: DeleteOrder fails with NotFound when the id is absent; any existing
order (finalized or not) is deleted unconditionally, its lines disappear with
it, every other order survives, and the item table — hence every stock
quantity — is untouched. -/
theorem delete_order_spec :
    (∀ (db : DB) (oid : Nat), findOrder db oid = none →
        delete_order db oid = .error ⟨404, "Order not found"⟩) ∧
    (∀ (db : DB) (oid : Nat) (row : OrderRow), findOrder db oid = some row →
        ∃ db', delete_order db oid = .ok db') ∧
    (∀ (db : DB) (oid : Nat) (db' : DB), delete_order db oid = .ok db' →
        db'.items = db.items ∧ findOrder db' oid = none ∧
        db'.order_lines.filter (fun l => l.order_id == oid) = [] ∧
        ∀ o ∈ db.orders, o.order_id ≠ oid → o ∈ db'.orders) := by
  refine ⟨?_, ?_, ?_⟩
  · intro db oid h
    unfold delete_order
    rw [h]
  · intro db oid row h
    cases hc : delete_order db oid with
    | ok db1 => exact ⟨db1, rfl⟩
    | error e =>
      unfold delete_order at hc
      rw [h] at hc
      simp at hc
  · intro db oid db' h
    obtain ⟨-, hdb'⟩ := delete_order_ok h
    subst hdb'
    refine ⟨rfl, ?_, ?_, ?_⟩
    · show List.find? _ (db.orders.filter _) = none
      rw [List.find?_eq_none]
      intro o ho
      have := (List.mem_filter.mp ho).2
      simp only [bne_iff_ne] at this
      simp only [beq_iff_eq]
      exact this
    · rw [List.filter_eq_nil_iff]
      intro l hl
      have := (List.mem_filter.mp hl).2
      simp only [bne_iff_ne] at this
      simp only [beq_iff_eq]
      exact this
    · intro o ho hne
      exact List.mem_filter.mpr ⟨ho, bne_iff_ne.mpr hne⟩

/-- C10 witness: deleting a completed concrete order succeeds, removes it and
leaves the item table unchanged; a missing id yields NotFound. -/
theorem delete_order_spec_witness :
    delete_order dbNorm2 9 = .error ⟨404, "Order not found"⟩ ∧
    dbDel.items = dbNorm2.items ∧
    findOrder dbDel 1 = none := by
  refine ⟨?_, ?_, ?_⟩
  · exact delete_order_spec.1 dbNorm2 9 (by decide)
  · exact (delete_order_spec.2.2 dbNorm2 1 dbDel (by decide)).1
  · exact (delete_order_spec.2.2 dbNorm2 1 dbDel (by decide)).2.1


end ITrack
